import Mathlib

/-
Verification of the sjtu-canvas-downloader core against its specification.

The Python source is shallowly embedded: network responses become explicit
response values passed as arguments, Python dicts with integer keys become
ordered association lists with Python's assignment semantics (replace the
value in place when the key exists, append otherwise), and Python exceptions
become `Except` results.  Call traces (which media-resolution calls were
issued, how many captcha images were fetched, ...) are returned alongside
results so that frame conditions can be stated.
-/

/-- Python dict assignment `d[k] = v`: if `k` is already a key, the value is
replaced at its existing position; otherwise the pair is appended (Python
dicts preserve insertion order). -/
def dictInsert {β : Type} : List (Nat × β) → Nat → β → List (Nat × β)
  | [], k, v => [(k, v)]
  | (k', v') :: rest, k, v =>
    if k' = k then (k, v) :: rest else (k', v') :: dictInsert rest k v

/-- Python dict lookup `d.get(k)` / `d[k]`. -/
def dictLookup {β : Type} : List (Nat × β) → Nat → Option β
  | [], _ => none
  | (k', v') :: rest, k => if k' = k then some v' else dictLookup rest k

/-- Keys of an embedded Python dict, in insertion order. -/
def dictKeys {β : Type} (d : List (Nat × β)) : List Nat := d.map (·.1)

/-- `list(d.values())`: values of an embedded Python dict, in insertion order. -/
def dictValues {β : Type} (d : List (Nat × β)) : List β := d.map (·.2)

namespace CourseHelper

/-- One record of the `findVodVideoList` listing response
(`src/scripts/canvas.py`, `get_course_info`). -/
structure CourseRecord where
  courId : Nat
  videoName : String
  courseBeginTime : String
  courseEndTime : String
  videoId : String
deriving DecidableEq

/-- The `findVodVideoList` listing response: its numeric `code` field and its
`data.records` list.  `records = none` models a falsy / absent `data` field
(the source then returns the empty course list). -/
structure ListResp where
  code : Int
  records : Option (List CourseRecord)
deriving DecidableEq

/-- A course dict as built by `get_course_info`; `download_urls = none` models
the key being absent (it is only set by `refresh`/`update`). -/
structure Course where
  id : Nat
  name : String
  dt_start : String
  dt_end : String
  video_id : String
  download_urls : Option (List (Nat × String)) := none
deriving DecidableEq

/-- `CourseHelper.get_course_info`: empty list on `code == -1` or falsy
`data`, otherwise one course dict per record, without `download_urls`. -/
def get_course_info (resp : ListResp) : List Course :=
  if resp.code = -1 then []
  else
    match resp.records with
    | none => []
    | some rs =>
      rs.map fun r =>
        { id := r.courId, name := r.videoName, dt_start := r.courseBeginTime,
          dt_end := r.courseEndTime, video_id := r.videoId, download_urls := none }

/-- One entry of `data.videoPlayResponseVoList` in the `getVodVideoInfos`
response (`get_video_url`). -/
structure VideoDesc where
  cdviViewNum : Int
  rtmpUrlHdv : String
deriving DecidableEq

/-- `channel = int(video.get('cdviViewNum')) != 0` followed by the
`int(channel)` cast used as the dict key. -/
def chanKey (v : VideoDesc) : Nat := if v.cdviViewNum ≠ 0 then 1 else 0

/-- `CourseHelper.get_video_url`, given the descriptor list of the response:
`videos[int(channel)] = video.get('rtmpUrlHdv')` over the list in order. -/
def get_video_url (descs : List VideoDesc) : List (Nat × String) :=
  descs.foldl (fun vids v => dictInsert vids (chanKey v) v.rtmpUrlHdv) []

/-- Truthiness of `course.get('download_urls', None)`: `None` and the empty
dict are falsy. -/
def truthyUrls : Option (List (Nat × String)) → Bool
  | none => false
  | some l => !l.isEmpty

/-- `CourseHelper.refresh`, with the media-resolution network call abstracted
as `resolve : video_id → channel dict`.  Returns the new course list together
with the trace of video ids passed to `get_video_url`, in call order. -/
def refresh (resolve : String → List (Nat × String)) (resp : ListResp) :
    List Course × List String :=
  ((get_course_info resp).map
      (fun c => { c with download_urls := some (resolve c.video_id) }),
   (get_course_info resp).map (·.video_id))

/-- `current = {c['id']: c for c in self._courses}`. -/
def coursesById (cs : List Course) : List (Nat × Course) :=
  cs.foldl (fun d c => dictInsert d c.id c) []

/-- The merge loop of `CourseHelper.update`: walk the freshly fetched courses,
skip those already present with truthy `download_urls`, resolve and insert the
rest.  Returns the final dict and the trace of resolved video ids. -/
def updateLoop (resolve : String → List (Nat × String)) :
    List Course → List (Nat × Course) → List (Nat × Course) × List String
  | [], cur => (cur, [])
  | c :: rest, cur =>
    if (match dictLookup cur c.id with
        | some p => truthyUrls p.download_urls
        | none => false) then
      updateLoop resolve rest cur
    else
      let c' := { c with download_urls := some (resolve c.video_id) }
      let r := updateLoop resolve rest (dictInsert cur c.id c')
      (r.1, c.video_id :: r.2)

/-- `CourseHelper.update`.  `prev = none` models the `hasattr` guard (no
`_courses` attribute yet): the source then delegates to `refresh`.  Otherwise
the merge loop runs against `coursesById prev` and the result is
`list(current.values())`. -/
def update (resolve : String → List (Nat × String)) (resp : ListResp)
    (prev : Option (List Course)) : List Course × List String :=
  match prev with
  | none => refresh resolve resp
  | some pcs =>
    let r := updateLoop resolve (get_course_info resp) (coursesById pcs)
    (dictValues r.1, r.2)

end CourseHelper

namespace Utils

/-- Characters stripped by Python `str.strip()` (the ASCII whitespace set). -/
def isPySpace (c : Char) : Bool :=
  c == ' ' || c == '\t' || c == '\n' || c == '\r' || c == '\x0b' || c == '\x0c'

/-- Python `str.strip()` on the character list: drop whitespace from both
ends. -/
def pyStripList (l : List Char) : List Char :=
  ((l.dropWhile isPySpace).reverse.dropWhile isPySpace).reverse

/-- Python `str.strip()`. -/
def pyStrip (s : String) : String := ⟨pyStripList s.data⟩

/-- Python `f"{n:0w}"`: zero-pad the decimal rendering of `n` on the left to
width `w`, keeping longer renderings intact. -/
def padNat (w : Nat) (n : Nat) : String :=
  ⟨List.replicate (w - (Nat.repr n).length) '0' ++ (Nat.repr n).data⟩

/-- `format_srt_timestamp` (`src/scripts/utils.py`): successive division and
remainder by 3600000 / 60000 / 1000, fields zero-padded to 2/2/2/3. -/
def format_srt_timestamp (ms : Nat) : String :=
  let hours := ms / 3600000
  let ms1 := ms % 3600000
  let minutes := ms1 / 60000
  let ms2 := ms1 % 60000
  let seconds := ms2 / 1000
  let milliseconds := ms2 % 1000
  padNat 2 hours ++ ":" ++ padNat 2 minutes ++ ":" ++ padNat 2 seconds ++
    "," ++ padNat 3 milliseconds

/-- One transcript segment as produced by `get_transcripts`. -/
structure Transcript where
  dt_start : Nat
  dt_end : Nat
  content : String
deriving DecidableEq

/-- `item['content'].replace('\n', ' ').strip()`. -/
def cleanContent (s : String) : String :=
  pyStrip ⟨s.data.map (fun c => if c = '\n' then ' ' else c)⟩

/-- The chunk appended per loop iteration of `parse_srt`:
`f"{idx}\n{start_time} --> {end_time}\n{content}\n\n"`. -/
def srtChunk (idx : Nat) (t : Transcript) : String :=
  Nat.repr idx ++ "\n" ++ format_srt_timestamp t.dt_start ++ " --> " ++
    format_srt_timestamp t.dt_end ++ "\n" ++ cleanContent t.content ++ "\n\n"

/-- The accumulated `srt_content` of `parse_srt`, enumerating from `idx`. -/
def srtBody (idx : Nat) : List Transcript → String
  | [] => ""
  | t :: rest => srtChunk idx t ++ srtBody (idx + 1) rest

/-- `parse_srt`: the accumulated chunks, finally `.strip()`-ed. -/
def parse_srt (ts : List Transcript) : String := pyStrip (srtBody 1 ts)

/-- Modelled from the spec's words, for comparison in C9: the i-th block is
`"{i}\n{start} --> {end}\n{text}"` with the cleaned text. -/
def specBlock (idx : Nat) (t : Transcript) : String :=
  Nat.repr idx ++ "\n" ++ format_srt_timestamp t.dt_start ++ " --> " ++
    format_srt_timestamp t.dt_end ++ "\n" ++ cleanContent t.content

/-- Modelled from the spec's words, for comparison in C9: blocks separated by
exactly one blank line, no trailing blank line. -/
def renderSubtitlesSpec (idx : Nat) : List Transcript → String
  | [] => ""
  | [t] => specBlock idx t
  | t :: rest => specBlock idx t ++ "\n\n" ++ renderSubtitlesSpec (idx + 1) rest

end Utils

namespace Manager

/-- A course dict as consumed by `_generate_aria2_txt`: its name and its
`download_urls` channel dict. -/
structure CourseR where
  id : Nat
  name : String
  download_urls : List (Nat × String)
deriving DecidableEq

/-- A subject dict as consumed by `_generate_aria2_txt` (after `download`
re-keyed its course list by course id). -/
structure SubjR where
  name : String
  courses : List (Nat × CourseR)
deriving DecidableEq

/-- `v.split('?')[0]`: the prefix before the first `'?'`. -/
def beforeQuery (l : List Char) : List Char := l.takeWhile (· ≠ '?')

/-- `u.split('.')[-1]`: the suffix after the last `'.'` (the whole string
when no `'.'` occurs). -/
def afterLastDot (l : List Char) : List Char :=
  (l.reverse.takeWhile (· ≠ '.')).reverse

/-- `exf = v.split('?')[0].split('.')[-1]`. -/
def extOf (v : String) : String := ⟨afterLastDot (beforeQuery v.data)⟩

/-- `f"{subj_name}/{course_name}_{k}.{exf}"`. -/
def mkPath (subjName courseName : String) (k : Nat) (ext : String) : String :=
  subjName ++ "/" ++ courseName ++ "_" ++ Nat.repr k ++ "." ++ ext

/-- The innermost loop of `_generate_aria2_txt` over one course's
`download_urls`: skip channel 1 unless `with_screen_record`, else emit the
`(url, output_path)` pair. -/
def courseJobs (subjName : String) (course : CourseR) (with_screen_record : Bool) :
    List (String × String) :=
  (course.download_urls.filter (fun kv => with_screen_record || kv.1 != 1)).map
    (fun kv => (kv.2, mkPath subjName course.name kv.1 (extOf kv.2)))

/-- The middle loop: jobs of the selected courses of one subject, in
selection order.  A missing course id makes the source crash on
`None.get('name')`; this is the `AttributeError` branch. -/
def subjJobs (subj : SubjR) (ws : Bool) : List Nat → Except String (List (String × String))
  | [] => .ok []
  | cid :: rest =>
    match dictLookup subj.courses cid with
    | none => .error "AttributeError"
    | some c => do
      let q ← subjJobs subj ws rest
      .ok (courseJobs subj.name c ws ++ q)

/-- The outer loop of `_generate_aria2_txt` over the selection. -/
def genQueue (subjects : List (Nat × SubjR)) (ws : Bool) :
    List (Nat × List Nat) → Except String (List (String × String))
  | [] => .ok []
  | (sid, cids) :: rest =>
    match dictLookup subjects sid with
    | none => .error "AttributeError"
    | some subj => do
      let q1 ← subjJobs subj ws cids
      let q2 ← genQueue subjects ws rest
      .ok (q1 ++ q2)

/-- `'\n'.join(...)`. -/
def joinNL : List String → String
  | [] => ""
  | [s] => s
  | s :: rest => s ++ "\n" ++ joinNL rest

/-- `Manager._generate_aria2_txt`: the manifest text, one
`"{url}\n  out={path}\n"` record per job, blank-line separated. -/
def generate_aria2_txt (course_ids : List (Nat × List Nat))
    (subjects : List (Nat × SubjR)) (with_screen_record : Bool) :
    Except String String :=
  (genQueue subjects with_screen_record course_ids).map
    (fun q => joinNL (q.map (fun uv => uv.1 ++ "\n  out=" ++ uv.2 ++ "\n")))

end Manager

namespace CanvasHelper

/-- A subject dict.  `access_token` / `canvas_subject_id` model the keys
being absent until `refresh` assigns them. -/
structure Subject where
  id : Nat
  name : String
  account : Nat
  access_token : Option String := none
  canvas_subject_id : Option String := none
deriving DecidableEq

/-- One record of the favourite-courses listing response. -/
structure RawSubject where
  id : Nat
  name : String
  account_id : Nat
deriving DecidableEq

/-- `CanvasHelper.get_subject_list` applied to the JSON response: id, name
and account only; no token fields. -/
def get_subject_list (resp : List RawSubject) : List Subject :=
  resp.map fun s => { id := s.id, name := s.name, account := s.account_id }

/-- A response page for `_redirect_request`, reduced to its first form;
`none` models a page without a form (`soup.find('form')` is `None` and the
`form['id']` subscript raises `TypeError`). -/
structure FormPage where
  formId : String
  action : String
  inputs : List (String × String)
deriving DecidableEq

/-- Python exceptions surfacing from `get_access_token`. -/
inductive PyErr
  | typeError
  | runtimeError (msg : String)
  | attributeError
  | indexError
  | keyError
  | assertionError (msg : String)
deriving DecidableEq

/-- `CanvasHelper._redirect_request`, given the parsed response page. -/
def redirect_request (page : Option FormPage) :
    Except PyErr (String × List (String × String)) :=
  match page with
  | none => .error .typeError
  | some f =>
    if f.formId = "login_form" then .error (.runtimeError "Login required.")
    else .ok (f.action, f.inputs)

/-- The `data` object of the token-resolution response. -/
structure TokenData where
  token : String
  courId : String
deriving DecidableEq

/-- The token-resolution JSON response of `getAccessTokenByTokenId`. -/
structure TokenResp where
  code : Int
  message : Option String
  data : Option TokenData
deriving DecidableEq

/-- The remote responses consumed by one `get_access_token` call, hop by
hop.  `hop3Location` is the `Location` header of the redirect-disabled third
request (`none` models the header being absent, so `url` is `None` and
`None.split('?')` raises `AttributeError`). -/
structure TokenEnv where
  hop1 : Option FormPage
  hop2 : Option FormPage
  hop3Location : Option String
  tokenResp : TokenResp
deriving DecidableEq

/-- `CanvasHelper.get_access_token` over a `TokenEnv`. -/
def get_access_token (env : TokenEnv) : Except PyErr (String × String) := do
  let _ ← redirect_request env.hop1
  let _ ← redirect_request env.hop2
  match env.hop3Location with
  | none => .error .attributeError
  | some loc =>
    match (loc.splitOn "?")[1]? with
    | none => .error .indexError
    | some _query =>
      let res := env.tokenResp
      if res.code = 0 then
        match res.data with
        | some d => .ok (d.token, d.courId)
        | none => .error .keyError
      else .error (.assertionError ((res.message).getD "Unknown error"))

/-- The token loop of `CanvasHelper.refresh`: walk the subject list in
order, assigning both fields from each successful exchange; a raising
exchange aborts the loop, leaving that subject and all later ones
untouched.  The token exchange is abstracted as `tok : subject id ↦ result`. -/
def refreshTokens (tok : Nat → Except PyErr (String × String)) :
    List Subject → List Subject × Option PyErr
  | [] => ([], none)
  | s :: rest =>
    match tok s.id with
    | .error e => (s :: rest, some e)
    | .ok (a, c) =>
      let r := refreshTokens tok rest
      ({ s with access_token := some a, canvas_subject_id := some c } :: r.1, r.2)

/-- `CanvasHelper.refresh(update_subjects)`: optionally rebuild the subject
list from the listing response, then run the token loop.  Returns the
subject list as left in `self._subjects`, plus the escaping exception if
any. -/
def refresh (tok : Nat → Except PyErr (String × String)) (resp : List RawSubject)
    (st : List Subject) (update_subjects : Bool) : List Subject × Option PyErr :=
  refreshTokens tok (if update_subjects then get_subject_list resp else st)

end CanvasHelper

namespace PwdLogin

/-- The `ulogin` JSON response: `errno` (the source defaults a missing
`errno` to 1) and the error `code` string. -/
structure LoginResp where
  errno : Int
  code : String
deriving DecidableEq

/-- `parse_login_state` (`src/scripts/sjtu_login/pwd_login.py`); the
finalising GET issued on success does not affect the state code.  The error
case models the raised `Exception` for an unknown response. -/
def parse_login_state (data : LoginResp) : Except String Nat :=
  if data.errno = 0 then .ok 0
  else if data.code = "WRONG_USER_OR_PASSWORD" then .ok 1
  else if data.code = "WRONG_CAPTCHA" then .ok 2
  else .error "Unknown error"

/-- One login POST as submitted by `send_login_request`. -/
structure Post where
  user : String
  pwd : String
  captcha : String
  uuid : String
deriving DecidableEq

/-- Observable trace of a `login_with_pwd` run. -/
structure Trace where
  captchaFetches : Nat
  userPrompts : Nat
  posts : List Post
deriving DecidableEq

/-- Failure modes of the embedded run: an input or response script running
dry, or `parse_login_state` raising. -/
inductive LoginErr
  | scriptExhausted
  | unknownResponse
deriving DecidableEq

/-- The `WRONG_CAPTCHA` response of the C4 scenario. -/
def wrongCaptchaResp : LoginResp := { errno := 1, code := "WRONG_CAPTCHA" }

/-- The two nested `while` loops of `login_with_pwd`.  `prompt` is true when
the outer loop must (re-)prompt for username and password; `currentUser`
carries the source's `current_user`.  Username, password and captcha prompts
consume the corresponding input scripts; each `send_login_request` consumes
one scripted `(response, cookies)` pair, cookies being modelled as a `Nat`
tag.  The response script bounds the recursion. -/
def loginLoop (uuid : String) :
    Bool → String → String → String → List String → List String → List String →
    Trace → List (LoginResp × Nat) → Except LoginErr Nat × Trace
  | prompt, currentUser, user, pwd, users, pwds, captchas, tr, resps =>
    let prompted :=
      if prompt then
        match users, pwds with
        | u :: us, p :: ps =>
          some (if u ≠ "" then u else currentUser, p,
                if u ≠ "" then u else currentUser, us, ps, tr.userPrompts + 1)
        | _, _ => none
      else some (user, pwd, currentUser, users, pwds, tr.userPrompts)
    match prompted with
    | none => (.error .scriptExhausted, tr)
    | some (user', pwd', currentUser', users', pwds', prompts') =>
      match captchas with
      | [] =>
        (.error .scriptExhausted,
         { tr with userPrompts := prompts', captchaFetches := tr.captchaFetches + 1 })
      | c :: cs =>
        match resps with
        | [] =>
          (.error .scriptExhausted,
           { tr with userPrompts := prompts', captchaFetches := tr.captchaFetches + 1 })
        | (r, ck) :: rs =>
          let tr' : Trace :=
            { captchaFetches := tr.captchaFetches + 1,
              userPrompts := prompts',
              posts := tr.posts ++ [{ user := user', pwd := pwd', captcha := c, uuid := uuid }] }
          match parse_login_state r with
          | .error _ => (.error .unknownResponse, tr')
          | .ok 0 => (.ok ck, tr')
          | .ok 1 => loginLoop uuid true currentUser' user' pwd' users' pwds' cs tr' rs
          | .ok 2 => loginLoop uuid false currentUser' user' pwd' users' pwds' cs tr' rs
          | .ok _ => (.error .unknownResponse, tr')

/-- `login_with_pwd`: `current_user = ''`, then the loops. -/
def login_with_pwd (uuid : String) (users pwds captchas : List String)
    (resps : List (LoginResp × Nat)) : Except LoginErr Nat × Trace :=
  loginLoop uuid true "" "" "" users pwds captchas ⟨0, 0, []⟩ resps

end PwdLogin

namespace Cex

/-- A previous course list that repeats the id 5, both entries resolved. -/
def dupPrev : List CourseHelper.Course :=
  [{ id := 5, name := "a", dt_start := "", dt_end := "", video_id := "x",
     download_urls := some [(0, "u")] },
   { id := 5, name := "b", dt_start := "", dt_end := "", video_id := "y",
     download_urls := some [(0, "v")] }]

/-- A listing response with falsy `data`. -/
def emptyResp : CourseHelper.ListResp := { code := -1, records := none }

/-- A listing response repeating the course id 1. -/
def dupResp : CourseHelper.ListResp :=
  { code := 0,
    records := some [{ courId := 1, videoName := "n1", courseBeginTime := "s",
                       courseEndTime := "e", videoId := "a" },
                     { courId := 1, videoName := "n2", courseBeginTime := "s",
                       courseEndTime := "e", videoId := "b" }] }

/-- A listing response with two distinct course ids. -/
def okResp : CourseHelper.ListResp :=
  { code := 0,
    records := some [{ courId := 1, videoName := "n1", courseBeginTime := "s",
                       courseEndTime := "e", videoId := "a" },
                     { courId := 2, videoName := "n2", courseBeginTime := "s",
                       courseEndTime := "e", videoId := "b" }] }

/-- A listing response naming only the course id 1. -/
def witResp : CourseHelper.ListResp :=
  { code := 0,
    records := some [{ courId := 1, videoName := "n1", courseBeginTime := "s",
                       courseEndTime := "e", videoId := "a" }] }

/-- A previous course list with the single resolved course id 1. -/
def witPrev : List CourseHelper.Course :=
  [{ id := 1, name := "n1", dt_start := "s", dt_end := "e", video_id := "a",
     download_urls := some [(0, "u")] }]

/-- A media resolver returning a fixed non-empty channel dict. -/
def constResolve : String → List (Nat × String) := fun _ => [(0, "r")]

/-- A token-exchange environment whose first two hops answer with ordinary
forms but whose third-hop response carries no `Location` header. -/
def noLocEnv : CanvasHelper.TokenEnv :=
  { hop1 := some { formId := "f1", action := "u1", inputs := [] },
    hop2 := some { formId := "f2", action := "u2", inputs := [] },
    hop3Location := none,
    tokenResp := { code := 0, message := none, data := none } }

/-- A token exchange that succeeds except for subject id 2. -/
def tokW : Nat → Except CanvasHelper.PyErr (String × String) :=
  fun i => if i = 2 then .error .typeError else .ok ("t", "c")

/-- A favourite-courses response with three subjects. -/
def rawSubjs : List CanvasHelper.RawSubject :=
  [{ id := 1, name := "s1", account_id := 10 },
   { id := 2, name := "s2", account_id := 20 },
   { id := 3, name := "s3", account_id := 30 }]

/-- The first subject of `rawSubjs` after its successful token exchange. -/
def subjW : CanvasHelper.Subject :=
  { id := 1, name := "s1", account := 10,
    access_token := some "t", canvas_subject_id := some "c" }

/-- A subject map with two same-named courses under one subject. -/
def colSubjs : List (Nat × Manager.SubjR) :=
  [(7, { name := "S",
         courses := [(1, { id := 1, name := "lec", download_urls := [(0, "x.mp4")] }),
                     (2, { id := 2, name := "lec", download_urls := [(0, "y.mp4")] })] })]

/-- A course named `a` with one channel-0 URL. -/
def wcA : Manager.CourseR := { id := 1, name := "a", download_urls := [(0, "u.mp4")] }

/-- A course named `b` with one channel-0 URL. -/
def wcB : Manager.CourseR := { id := 2, name := "b", download_urls := [(0, "v.mp4")] }

end Cex

/-! ## Helper lemmas: embedded Python dicts -/

theorem dictKeys_nil {β : Type} : dictKeys ([] : List (Nat × β)) = [] := rfl

theorem dictKeys_cons {β : Type} (k : Nat) (v : β) (d : List (Nat × β)) :
    dictKeys ((k, v) :: d) = k :: dictKeys d := rfl

theorem dictLookup_dictInsert {β : Type} (d : List (Nat × β)) (k k' : Nat) (v : β) :
    dictLookup (dictInsert d k v) k' = if k = k' then some v else dictLookup d k' := by
  induction d with
  | nil => simp [dictInsert, dictLookup]
  | cons hd tl ih =>
    obtain ⟨k₀, v₀⟩ := hd
    by_cases h : k₀ = k
    · subst h
      by_cases h' : k₀ = k'
      · subst h'; simp [dictInsert, dictLookup]
      · simp [dictInsert, dictLookup, h']
    · by_cases h' : k₀ = k'
      · subst h'
        have hne : ¬ (k = k₀) := fun hh => h hh.symm
        simp [dictInsert, dictLookup, h, hne]
      · simp [dictInsert, dictLookup, h, h', ih]

theorem mem_dictInsert {β : Type} (d : List (Nat × β)) (k : Nat) (v : β)
    (kv : Nat × β) (h : kv ∈ dictInsert d k v) : kv = (k, v) ∨ kv ∈ d := by
  induction d with
  | nil => simpa [dictInsert] using h
  | cons hd tl ih =>
    obtain ⟨k₀, v₀⟩ := hd
    by_cases hk : k₀ = k
    · subst hk
      simp [dictInsert] at h
      rcases h with h | h
      · exact Or.inl h
      · exact Or.inr (List.mem_cons_of_mem _ h)
    · simp [dictInsert, hk] at h
      rcases h with h | h
      · exact Or.inr (by simp [h])
      · rcases ih h with h' | h'
        · exact Or.inl h'
        · exact Or.inr (List.mem_cons_of_mem _ h')

theorem dictKeys_dictInsert {β : Type} (d : List (Nat × β)) (k : Nat) (v : β) :
    dictKeys (dictInsert d k v) =
      if k ∈ dictKeys d then dictKeys d else dictKeys d ++ [k] := by
  induction d with
  | nil => simp [dictInsert, dictKeys]
  | cons hd tl ih =>
    obtain ⟨k₀, v₀⟩ := hd
    by_cases hk : k₀ = k
    · subst hk
      rw [if_pos (by simp [dictKeys_cons])]
      simp [dictInsert, dictKeys_cons]
    · have hk' : ¬ (k = k₀) := fun h => hk h.symm
      show dictKeys (if k₀ = k then _ else (k₀, v₀) :: dictInsert tl k v) = _
      rw [if_neg hk, dictKeys_cons, ih, dictKeys_cons]
      by_cases hmem : k ∈ dictKeys tl
      · rw [if_pos hmem, if_pos (by simp [hmem])]
      · rw [if_neg hmem, if_neg (by simp [hk', hmem]), List.cons_append]

theorem dictKeys_nodup_dictInsert {β : Type} (d : List (Nat × β)) (k : Nat) (v : β)
    (h : (dictKeys d).Nodup) : (dictKeys (dictInsert d k v)).Nodup := by
  rw [dictKeys_dictInsert]
  by_cases hmem : k ∈ dictKeys d
  · simpa [hmem] using h
  · simpa [hmem, List.nodup_append] using h

theorem dictInsert_eq_append {β : Type} (d : List (Nat × β)) (k : Nat) (v : β)
    (h : k ∉ dictKeys d) : dictInsert d k v = d ++ [(k, v)] := by
  induction d with
  | nil => simp [dictInsert]
  | cons hd tl ih =>
    obtain ⟨k₀, v₀⟩ := hd
    rw [dictKeys_cons] at h
    simp only [List.mem_cons, not_or] at h
    show (if k₀ = k then _ else (k₀, v₀) :: dictInsert tl k v) = _
    rw [if_neg (fun hh => h.1 hh.symm), ih h.2, List.cons_append]

theorem dictLookup_eq_none {β : Type} (d : List (Nat × β)) (k : Nat)
    (h : k ∉ dictKeys d) : dictLookup d k = none := by
  induction d with
  | nil => rfl
  | cons hd tl ih =>
    obtain ⟨k₀, v₀⟩ := hd
    rw [dictKeys_cons] at h
    simp only [List.mem_cons, not_or] at h
    show (if k₀ = k then some v₀ else dictLookup tl k) = none
    rw [if_neg (fun hh => h.1 hh.symm), ih h.2]

theorem dictLookup_isSome {β : Type} (d : List (Nat × β)) (k : Nat)
    (h : k ∈ dictKeys d) : (dictLookup d k).isSome := by
  induction d with
  | nil => simp [dictKeys] at h
  | cons hd tl ih =>
    obtain ⟨k₀, v₀⟩ := hd
    show (if k₀ = k then some v₀ else dictLookup tl k).isSome = true
    by_cases hk : k₀ = k
    · simp [hk]
    · rw [dictKeys_cons] at h
      rcases List.mem_cons.mp h with h' | h'
      · exact absurd h'.symm hk
      · simp [hk, ih h']

/-! ## Helper lemmas: media resolution (`get_video_url`) -/

namespace CourseHelper

theorem chanKey_eq_zero_or_one (v : VideoDesc) : chanKey v = 0 ∨ chanKey v = 1 := by
  unfold chanKey
  by_cases h : v.cdviViewNum ≠ 0 <;> simp [h]

theorem get_video_url_concat (l : List VideoDesc) (v : VideoDesc) :
    get_video_url (l ++ [v]) =
      dictInsert (get_video_url l) (chanKey v) v.rtmpUrlHdv := by
  simp [get_video_url, List.foldl_append]

theorem dictLookup_get_video_url (descs : List VideoDesc) (k : Nat) :
    dictLookup (get_video_url descs) k =
      ((descs.filter (fun v => chanKey v == k)).getLast?).map VideoDesc.rtmpUrlHdv := by
  induction descs using List.reverseRecOn with
  | nil => rfl
  | append_singleton l v ih =>
    rw [get_video_url_concat, dictLookup_dictInsert, List.filter_append]
    by_cases h : chanKey v = k
    · simp [h, List.getLast?_concat]
    · have hb : (chanKey v == k) = false := by simpa using h
      simp [h, hb, ih]

theorem mem_get_video_url (descs : List VideoDesc) (kv : Nat × String)
    (h : kv ∈ get_video_url descs) : kv.1 = 0 ∨ kv.1 = 1 := by
  induction descs using List.reverseRecOn with
  | nil => simp [get_video_url] at h
  | append_singleton l v ih =>
    rw [get_video_url_concat] at h
    rcases mem_dictInsert _ _ _ _ h with h' | h'
    · rw [h']
      exact chanKey_eq_zero_or_one v
    · exact ih h'

theorem dictKeys_get_video_url_nodup (descs : List VideoDesc) :
    (dictKeys (get_video_url descs)).Nodup := by
  induction descs using List.reverseRecOn with
  | nil => simp [get_video_url, dictKeys]
  | append_singleton l v ih =>
    rw [get_video_url_concat]
    exact dictKeys_nodup_dictInsert _ _ _ ih

theorem get_video_url_length_le (descs : List VideoDesc) :
    (get_video_url descs).length ≤ 2 := by
  have hnd := dictKeys_get_video_url_nodup descs
  have hsub : (dictKeys (get_video_url descs)).toFinset ⊆ ({0, 1} : Finset Nat) := by
    intro k hk
    simp only [List.mem_toFinset] at hk
    obtain ⟨kv, hkv, hfst⟩ := List.mem_map.mp hk
    rcases mem_get_video_url descs kv hkv with h | h <;>
      simp [← hfst, h]
  have hlen : (get_video_url descs).length = (dictKeys (get_video_url descs)).length := by
    simp [dictKeys]
  rw [hlen, ← List.toFinset_card_of_nodup hnd]
  calc (dictKeys (get_video_url descs)).toFinset.card
      ≤ ({0, 1} : Finset Nat).card := Finset.card_le_card hsub
    _ = 2 := rfl

end CourseHelper

/-! ## Claims C3 and C10 -/

/-- C3: `resolveMedia` (`CourseHelper.get_video_url`) keys each descriptor by
the integer cast of the boolean "its numeric view-count field differs from
zero" (channel 0 is the zero-view stream, channel 1 the other) and maps that
key to the descriptor's primary URL field (the last matching descriptor's URL
when several share a channel); in particular on
`[{viewcount:0,url:"A"}, {viewcount:5,url:"B"}]` it yields `{0:"A", 1:"B"}`. -/
theorem resolveMedia_channel_classification :
    (∀ (descs : List CourseHelper.VideoDesc) (k : Nat),
      dictLookup (CourseHelper.get_video_url descs) k =
        ((descs.filter (fun v => CourseHelper.chanKey v == k)).getLast?).map
          CourseHelper.VideoDesc.rtmpUrlHdv) ∧
    CourseHelper.get_video_url [⟨0, "A"⟩, ⟨5, "B"⟩] = [(0, "A"), (1, "B")] :=
  ⟨CourseHelper.dictLookup_get_video_url, rfl⟩

/-- C10: for every media-descriptor response, the mapping returned by
`get_video_url` has keys drawn only from `{0, 1}`, hence at most two entries,
and whenever several descriptors classify to the same channel key the
returned URL for that key is the last such descriptor's URL in source order. -/
theorem resolveMedia_keys_and_last_wins :
    ∀ descs : List CourseHelper.VideoDesc,
      (∀ kv ∈ CourseHelper.get_video_url descs, kv.1 = 0 ∨ kv.1 = 1) ∧
      (CourseHelper.get_video_url descs).length ≤ 2 ∧
      (∀ k : Nat,
        dictLookup (CourseHelper.get_video_url descs) k =
          ((descs.filter (fun v => CourseHelper.chanKey v == k)).getLast?).map
            CourseHelper.VideoDesc.rtmpUrlHdv) :=
  fun descs =>
    ⟨fun kv h => CourseHelper.mem_get_video_url descs kv h,
     CourseHelper.get_video_url_length_le descs,
     fun k => CourseHelper.dictLookup_get_video_url descs k⟩

/-! ## Helper lemmas: the update merge loop -/

namespace CourseHelper

theorem dictLookup_dictInsert_isSome {β : Type} (d : List (Nat × β)) (k k' : Nat) (v : β)
    (h : (dictLookup d k').isSome) : (dictLookup (dictInsert d k v) k').isSome := by
  rw [dictLookup_dictInsert]
  by_cases hk : k = k' <;> simp [hk, h]

theorem foldl_coursesById_lookup_mem (l : List Course) :
    ∀ (d : List (Nat × Course)) (k : Nat) (c : Course),
      dictLookup (l.foldl (fun d c => dictInsert d c.id c) d) k = some c →
      c ∈ l ∨ dictLookup d k = some c := by
  induction l with
  | nil => exact fun d k c h => Or.inr h
  | cons x xs ih =>
    intro d k c h
    rcases ih (dictInsert d x.id x) k c h with h' | h'
    · exact Or.inl (List.mem_cons_of_mem _ h')
    · rw [dictLookup_dictInsert] at h'
      by_cases hk : x.id = k
      · rw [if_pos hk] at h'
        exact Or.inl (by simp [← Option.some_inj.mp h'])
      · rw [if_neg hk] at h'
        exact Or.inr h'

theorem coursesById_lookup_mem (pcs : List Course) (k : Nat) (c : Course)
    (h : dictLookup (coursesById pcs) k = some c) : c ∈ pcs := by
  rcases foldl_coursesById_lookup_mem pcs [] k c h with h' | h'
  · exact h'
  · simp [dictLookup] at h'

theorem foldl_coursesById_lookup_isSome (l : List Course) :
    ∀ (d : List (Nat × Course)) (k : Nat),
      (k ∈ l.map Course.id ∨ (dictLookup d k).isSome) →
      (dictLookup (l.foldl (fun d c => dictInsert d c.id c) d) k).isSome := by
  induction l with
  | nil =>
    intro d k h
    simpa using h
  | cons x xs ih =>
    intro d k h
    apply ih (dictInsert d x.id x) k
    rcases h with h | h
    · rw [List.map_cons] at h
      rcases List.mem_cons.mp h with h' | h'
      · right
        rw [dictLookup_dictInsert, if_pos h'.symm]
        rfl
      · exact Or.inl h'
    · exact Or.inr (dictLookup_dictInsert_isSome d x.id k x h)

theorem coursesById_lookup_isSome (pcs : List Course) (k : Nat)
    (h : k ∈ pcs.map Course.id) : (dictLookup (coursesById pcs) k).isSome :=
  foldl_coursesById_lookup_isSome pcs [] k (Or.inl h)

theorem updateLoop_skip_all (resolve : String → List (Nat × String))
    (l : List Course) (cur : List (Nat × Course))
    (h : ∀ c ∈ l, ∃ p, dictLookup cur c.id = some p ∧ truthyUrls p.download_urls) :
    updateLoop resolve l cur = (cur, []) := by
  induction l with
  | nil => rfl
  | cons c cs ih =>
    obtain ⟨p, hp, ht⟩ := h c (List.mem_cons_self c cs)
    show (if (match dictLookup cur c.id with
              | some p => truthyUrls p.download_urls
              | none => false) then _ else _) = _
    rw [hp]
    simp only [ht, if_true]
    exact ih (fun c' hc' => h c' (List.mem_cons_of_mem _ hc'))

theorem foldl_coursesById_eq (l : List Course) :
    ∀ d : List (Nat × Course),
      (∀ c ∈ l, c.id ∉ dictKeys d) → (l.map Course.id).Nodup →
      l.foldl (fun d c => dictInsert d c.id c) d = d ++ l.map (fun c => (c.id, c)) := by
  induction l with
  | nil => simp
  | cons c cs ih =>
    intro d hnew hnd
    have hins : dictInsert d c.id c = d ++ [(c.id, c)] :=
      dictInsert_eq_append d c.id c (hnew c (List.mem_cons_self c cs))
    have hnd' : (cs.map Course.id).Nodup := (List.nodup_cons.mp (by simpa using hnd)).2
    have hhd : c.id ∉ cs.map Course.id := (List.nodup_cons.mp (by simpa using hnd)).1
    have hnew' : ∀ c' ∈ cs, c'.id ∉ dictKeys (d ++ [(c.id, c)]) := by
      intro c' hc'
      have h1 : c'.id ∉ dictKeys d := hnew c' (List.mem_cons_of_mem _ hc')
      have h2 : c'.id ≠ c.id := by
        intro hh
        exact hhd (hh ▸ List.mem_map_of_mem Course.id hc')
      simp [dictKeys, h2]
      simpa [dictKeys] using h1
    show cs.foldl (fun d c => dictInsert d c.id c) (dictInsert d c.id c) = _
    rw [hins, ih (d ++ [(c.id, c)]) hnew' hnd']
    simp

theorem coursesById_eq (pcs : List Course) (hnd : (pcs.map Course.id).Nodup) :
    coursesById pcs = pcs.map (fun c => (c.id, c)) := by
  have := foldl_coursesById_eq pcs [] (by simp [dictKeys]) hnd
  simpa [coursesById] using this

theorem updateLoop_all_new (resolve : String → List (Nat × String)) (l : List Course) :
    ∀ cur : List (Nat × Course),
      (∀ c ∈ l, c.id ∉ dictKeys cur) → (l.map Course.id).Nodup →
      updateLoop resolve l cur =
        (cur ++ l.map (fun c => (c.id, { c with download_urls := some (resolve c.video_id) })),
         l.map Course.video_id) := by
  induction l with
  | nil => simp [updateLoop]
  | cons c cs ih =>
    intro cur hnew hnd
    have hnone : dictLookup cur c.id = none :=
      dictLookup_eq_none cur c.id (hnew c (List.mem_cons_self c cs))
    have hnd' : (cs.map Course.id).Nodup := (List.nodup_cons.mp (by simpa using hnd)).2
    have hhd : c.id ∉ cs.map Course.id := (List.nodup_cons.mp (by simpa using hnd)).1
    have hins : dictInsert cur c.id { c with download_urls := some (resolve c.video_id) } =
        cur ++ [(c.id, { c with download_urls := some (resolve c.video_id) })] :=
      dictInsert_eq_append cur c.id _ (hnew c (List.mem_cons_self c cs))
    have hnew' : ∀ c' ∈ cs,
        c'.id ∉ dictKeys (cur ++ [(c.id, { c with download_urls := some (resolve c.video_id) })]) := by
      intro c' hc'
      have h1 : c'.id ∉ dictKeys cur := hnew c' (List.mem_cons_of_mem _ hc')
      have h2 : c'.id ≠ c.id := by
        intro hh
        exact hhd (hh ▸ List.mem_map_of_mem Course.id hc')
      simp [dictKeys, h2]
      simpa [dictKeys] using h1
    show (if (match dictLookup cur c.id with
              | some p => truthyUrls p.download_urls
              | none => false) then _ else _) = _
    rw [hnone]
    simp only [Bool.false_eq_true, if_false]
    rw [hins, ih _ hnew' hnd']
    simp

end CourseHelper

/-! ## Claims C1 and C2 -/

/-- C1 (amended): when every previous course carries truthy `download_urls`
and every fetched course id already appears among the previous ids,
`CourseHelper.update` issues zero media-resolution calls; and provided the
previous course ids are pairwise distinct, its resulting course list is
content-equal to the previous list. -/
theorem courseHelper_update_cached_noop
    (resolve : String → List (Nat × String)) (resp : CourseHelper.ListResp)
    (prev : List CourseHelper.Course)
    (hprev : ∀ c ∈ prev, CourseHelper.truthyUrls c.download_urls = true)
    (hids : ∀ c ∈ CourseHelper.get_course_info resp,
      c.id ∈ prev.map CourseHelper.Course.id) :
    (CourseHelper.update resolve resp (some prev)).2 = [] ∧
    ((prev.map CourseHelper.Course.id).Nodup →
      (CourseHelper.update resolve resp (some prev)).1 = prev) := by
  have hskip : ∀ c ∈ CourseHelper.get_course_info resp,
      ∃ p, dictLookup (CourseHelper.coursesById prev) c.id = some p ∧
        CourseHelper.truthyUrls p.download_urls := by
    intro c hc
    have hs := CourseHelper.coursesById_lookup_isSome prev c.id (hids c hc)
    obtain ⟨p, hp⟩ := Option.isSome_iff_exists.mp hs
    exact ⟨p, hp, hprev p (CourseHelper.coursesById_lookup_mem prev c.id p hp)⟩
  have hloop := CourseHelper.updateLoop_skip_all resolve _ _ hskip
  constructor
  · show (CourseHelper.updateLoop resolve (CourseHelper.get_course_info resp)
        (CourseHelper.coursesById prev)).2 = []
    rw [hloop]
  · intro hnd
    show dictValues (CourseHelper.updateLoop resolve (CourseHelper.get_course_info resp)
        (CourseHelper.coursesById prev)).1 = prev
    rw [hloop, CourseHelper.coursesById_eq prev hnd]
    simp only [dictValues, List.map_map]
    show List.map id prev = prev
    exact List.map_id prev

/-- C1 counterexample: the claim quantifies over every previous course list;
with a previous list repeating a course id (both entries carrying non-empty
`download_urls`) and an empty listing response, the claim's hypotheses hold
but `update` collapses the duplicate, so the result is not content-equal to
the previous list. -/
theorem courseHelper_update_cached_noop_cex :
    (∀ c ∈ Cex.dupPrev, CourseHelper.truthyUrls c.download_urls = true) ∧
    (∀ c ∈ CourseHelper.get_course_info Cex.emptyResp,
      c.id ∈ Cex.dupPrev.map CourseHelper.Course.id) ∧
    (CourseHelper.update Cex.constResolve Cex.emptyResp (some Cex.dupPrev)).1 ≠
      Cex.dupPrev := by
  refine ⟨by decide, by decide, by decide⟩

/-- C1 witness: a concrete fully-resolved previous list with distinct ids and
a listing response naming only known ids. -/
theorem courseHelper_update_cached_noop_witness :
    (CourseHelper.update Cex.constResolve Cex.witResp (some Cex.witPrev)).2 = [] ∧
    (CourseHelper.update Cex.constResolve Cex.witResp (some Cex.witPrev)).1 = Cex.witPrev := by
  have h := courseHelper_update_cached_noop Cex.constResolve Cex.witResp Cex.witPrev
    (by decide) (by decide)
  exact ⟨h.1, h.2 (by decide)⟩

/-- C2 (amended): `update` on an empty previous course list produces the same
course list and the same media-resolution call trace as `refresh`, provided
the listing response's course ids are pairwise distinct. -/
theorem courseHelper_update_empty_eq_refresh
    (resolve : String → List (Nat × String)) (resp : CourseHelper.ListResp)
    (h : ((CourseHelper.get_course_info resp).map CourseHelper.Course.id).Nodup) :
    CourseHelper.update resolve resp (some []) = CourseHelper.refresh resolve resp := by
  have hloop := CourseHelper.updateLoop_all_new resolve
    (CourseHelper.get_course_info resp) [] (by simp [dictKeys]) h
  simp [CourseHelper.update, CourseHelper.coursesById, hloop, CourseHelper.refresh,
    dictValues, List.map_map]

/-- C2 counterexample: with a listing response repeating a course id and a
non-empty resolver, `update` on the empty previous list resolves the
duplicate only once and collapses it, while `refresh` resolves and keeps
both, so the two runs differ both in course list and in call trace. -/
theorem courseHelper_update_empty_eq_refresh_cex :
    CourseHelper.update Cex.constResolve Cex.dupResp (some []) ≠
      CourseHelper.refresh Cex.constResolve Cex.dupResp := by
  decide

/-- C2 witness: a concrete two-course listing response with distinct ids. -/
theorem courseHelper_update_empty_eq_refresh_witness :
    CourseHelper.update Cex.constResolve Cex.okResp (some []) =
      CourseHelper.refresh Cex.constResolve Cex.okResp :=
  courseHelper_update_empty_eq_refresh Cex.constResolve Cex.okResp (by decide)

/-! ## Claims C5 and C6 -/

/-- C5: whenever the third-hop response lacks a redirect `Location` header,
`CanvasHelper.get_access_token` never returns successfully; and whenever the
first two hops produced ordinary forms, it fails precisely with the
`AttributeError` data-shape failure of `None.split('?')`. -/
theorem tokenExchange_missing_location_fails
    (env : CanvasHelper.TokenEnv) (h : env.hop3Location = none) :
    (∀ v, CanvasHelper.get_access_token env ≠ Except.ok v) ∧
    (∀ r1 r2,
      CanvasHelper.redirect_request env.hop1 = Except.ok r1 →
      CanvasHelper.redirect_request env.hop2 = Except.ok r2 →
      CanvasHelper.get_access_token env =
        Except.error CanvasHelper.PyErr.attributeError) := by
  cases h1 : CanvasHelper.redirect_request env.hop1 with
  | error e =>
    constructor
    · intro v hv
      simp [CanvasHelper.get_access_token, h1, Bind.bind, Except.bind] at hv
    · intro r1 r2 h1' h2'
      simp at h1'
  | ok r1 =>
    cases h2 : CanvasHelper.redirect_request env.hop2 with
    | error e =>
      constructor
      · intro v hv
        simp [CanvasHelper.get_access_token, h1, h2, Bind.bind, Except.bind] at hv
      · intro r1' r2' h1' h2'
        simp at h2'
    | ok r2 =>
      have hres : CanvasHelper.get_access_token env =
          Except.error CanvasHelper.PyErr.attributeError := by
        simp [CanvasHelper.get_access_token, h1, h2, Bind.bind, Except.bind, h]
      refine ⟨fun v hv => ?_, fun _ _ _ _ => hres⟩
      rw [hres] at hv
      simp at hv

/-- C5 witness: a concrete environment with two ordinary forms and a missing
`Location` header. -/
theorem tokenExchange_missing_location_fails_witness :
    CanvasHelper.get_access_token Cex.noLocEnv =
      Except.error CanvasHelper.PyErr.attributeError :=
  (tokenExchange_missing_location_fails Cex.noLocEnv rfl).2
    ("u1", []) ("u2", []) rfl rfl

/-- The token loop preserves the both-or-neither token-field invariant, also
on the partially-updated list left behind by a failing exchange. -/
theorem refreshTokens_inv (tok : Nat → Except CanvasHelper.PyErr (String × String))
    (l : List CanvasHelper.Subject)
    (h : ∀ s ∈ l, s.access_token.isSome = s.canvas_subject_id.isSome) :
    ∀ s' ∈ (CanvasHelper.refreshTokens tok l).1,
      s'.access_token.isSome = s'.canvas_subject_id.isSome := by
  induction l with
  | nil => simp [CanvasHelper.refreshTokens]
  | cons s rest ih =>
    intro s' hs'
    cases htok : tok s.id with
    | error e =>
      rw [show CanvasHelper.refreshTokens tok (s :: rest) = (s :: rest, some e) from by
        simp [CanvasHelper.refreshTokens, htok]] at hs'
      exact h s' hs'
    | ok ac =>
      obtain ⟨a, c⟩ := ac
      rw [show (CanvasHelper.refreshTokens tok (s :: rest)).1 =
          { s with access_token := some a, canvas_subject_id := some c } ::
            (CanvasHelper.refreshTokens tok rest).1 from by
        simp [CanvasHelper.refreshTokens, htok]] at hs'
      rcases List.mem_cons.mp hs' with h' | h'
      · rw [h']
        rfl
      · exact ih (fun t ht => h t (List.mem_cons_of_mem _ ht)) s' h'

/-- C6: every subject produced by `get_subject_list` has neither token field,
and `CanvasHelper.refresh` — in both of its modes, and also when a failing
token exchange aborts it partway — leaves a subject list in which
`access_token` and `canvas_subject_id` are present together or absent
together. -/
theorem canvasHelper_token_fields_invariant :
    (∀ (resp : List CanvasHelper.RawSubject) (s : CanvasHelper.Subject),
      s ∈ CanvasHelper.get_subject_list resp →
      s.access_token.isSome = s.canvas_subject_id.isSome) ∧
    (∀ (tok : Nat → Except CanvasHelper.PyErr (String × String))
        (resp : List CanvasHelper.RawSubject) (st : List CanvasHelper.Subject)
        (upd : Bool),
      (∀ s ∈ st, s.access_token.isSome = s.canvas_subject_id.isSome) →
      ∀ s' ∈ (CanvasHelper.refresh tok resp st upd).1,
        s'.access_token.isSome = s'.canvas_subject_id.isSome) := by
  have hlist : ∀ (resp : List CanvasHelper.RawSubject) (s : CanvasHelper.Subject),
      s ∈ CanvasHelper.get_subject_list resp →
      s.access_token.isSome = s.canvas_subject_id.isSome := by
    intro resp s hs
    obtain ⟨r, _, hr⟩ := List.mem_map.mp hs
    rw [← hr]
  refine ⟨hlist, fun tok resp st upd hst => ?_⟩
  unfold CanvasHelper.refresh
  cases upd with
  | true => exact refreshTokens_inv tok _ (fun s hs => hlist resp s (by simpa using hs))
  | false => exact refreshTokens_inv tok _ (fun s hs => hst s (by simpa using hs))

/-- C6 witness: a three-subject refresh aborted by a failing exchange on the
second subject still satisfies the invariant, here checked on the first,
successfully updated subject. -/
theorem canvasHelper_token_fields_invariant_witness :
    Cex.subjW.access_token.isSome = Cex.subjW.canvas_subject_id.isSome :=
  canvasHelper_token_fields_invariant.2 Cex.tokW Cex.rawSubjs [] true
    (by simp) Cex.subjW (by decide)

/-! ## Claim C4 -/

/-- C4: for every username/password/captcha input script and uuid, when the
login endpoint answers wrong-captcha twice and then `errno 0`,
`login_with_pwd` fetches the captcha image exactly three times, prompts for
the username exactly once, submits the same username, password and uuid in
all three login POSTs, and returns exactly the cookies of the third
submission. -/
theorem login_with_pwd_captcha_retry
    (uuid u p s : String) (us ps cs : List String) (c1 c2 c3 : String)
    (k1 k2 k3 : Nat) :
    PwdLogin.login_with_pwd uuid (u :: us) (p :: ps) (c1 :: c2 :: c3 :: cs)
        [(PwdLogin.wrongCaptchaResp, k1), (PwdLogin.wrongCaptchaResp, k2),
         ({ errno := 0, code := s }, k3)] =
      (Except.ok k3,
       { captchaFetches := 3, userPrompts := 1,
         posts := [{ user := u, pwd := p, captcha := c1, uuid := uuid },
                   { user := u, pwd := p, captcha := c2, uuid := uuid },
                   { user := u, pwd := p, captcha := c3, uuid := uuid }] }) := by
  have hwc : PwdLogin.parse_login_state PwdLogin.wrongCaptchaResp = Except.ok 2 := rfl
  have hok : PwdLogin.parse_login_state { errno := 0, code := s } = Except.ok 0 := rfl
  by_cases hu : u = ""
  · subst hu
    simp [PwdLogin.login_with_pwd, PwdLogin.loginLoop, hwc, hok]
  · simp [PwdLogin.login_with_pwd, PwdLogin.loginLoop, hwc, hok, hu]

/-! ## Claim C8 -/

/-- C8: for every millisecond count, `format_srt_timestamp` renders
`HH:MM:SS,mmm` with the four fields obtained by integer division/modulo by
3600000 / 60000 / 1000 and zero-padded to widths 2/2/2/3, hours not being
clamped; in particular `format_srt_timestamp 3723045 = "01:02:03,045"` and a
25-hour count keeps its unclamped hour field. -/
theorem formatTimestamp_shape :
    (∀ m : Nat, Utils.format_srt_timestamp m =
      Utils.padNat 2 (m / 3600000) ++ ":" ++ Utils.padNat 2 (m % 3600000 / 60000) ++
        ":" ++ Utils.padNat 2 (m % 60000 / 1000) ++ "," ++ Utils.padNat 3 (m % 1000)) ∧
    Utils.format_srt_timestamp 3723045 = "01:02:03,045" ∧
    Utils.format_srt_timestamp 90000000 = "25:00:00,000" := by
  refine ⟨fun m => ?_, rfl, rfl⟩
  unfold Utils.format_srt_timestamp
  dsimp only
  rw [Nat.mod_mod_of_dvd m (by norm_num : (60000 : Nat) ∣ 3600000),
    Nat.mod_mod_of_dvd m (by norm_num : (1000 : Nat) ∣ 60000)]

/-! ## Helper lemmas: decimal renderings and stripped strings -/

theorem digitChar_isDigit : ∀ m : Nat, m < 10 → (Nat.digitChar m).isDigit = true := by
  decide

theorem toDigitsCore_succ (f n : Nat) (ds : List Char) :
    Nat.toDigitsCore 10 (f + 1) n ds =
      if n / 10 = 0 then (n % 10).digitChar :: ds
      else Nat.toDigitsCore 10 f (n / 10) ((n % 10).digitChar :: ds) := by
  simp [Nat.toDigitsCore]

theorem mem_toDigitsCore :
    ∀ (fuel n : Nat) (ds : List Char) (c : Char),
      c ∈ Nat.toDigitsCore 10 fuel n ds → c ∈ ds ∨ c.isDigit = true := by
  intro fuel
  induction fuel with
  | zero =>
    intro n ds c h
    exact Or.inl (by simpa [Nat.toDigitsCore] using h)
  | succ f ih =>
    intro n ds c h
    rw [toDigitsCore_succ] at h
    by_cases h0 : n / 10 = 0
    · rw [if_pos h0] at h
      rcases List.mem_cons.mp h with h' | h'
      · exact Or.inr (h' ▸ digitChar_isDigit _ (Nat.mod_lt n (by norm_num)))
      · exact Or.inl h'
    · rw [if_neg h0] at h
      rcases ih (n / 10) ((n % 10).digitChar :: ds) c h with h' | h'
      · rcases List.mem_cons.mp h' with h'' | h''
        · exact Or.inr (h'' ▸ digitChar_isDigit _ (Nat.mod_lt n (by norm_num)))
        · exact Or.inl h''
      · exact Or.inr h'

theorem mem_repr_isDigit (n : Nat) (c : Char) (h : c ∈ (Nat.repr n).data) :
    c.isDigit = true := by
  have h' : c ∈ Nat.toDigitsCore 10 (n + 1) n [] := h
  rcases mem_toDigitsCore (n + 1) n [] c h' with h'' | h''
  · simp at h''
  · exact h''

theorem toDigitsCore_ne_nil :
    ∀ (f n : Nat) (ds : List Char), f ≠ 0 ∨ ds ≠ [] →
      Nat.toDigitsCore 10 f n ds ≠ [] := by
  intro f
  induction f with
  | zero =>
    intro n ds h
    rcases h with h | h
    · exact absurd rfl h
    · simpa [Nat.toDigitsCore] using h
  | succ f ih =>
    intro n ds _
    rw [toDigitsCore_succ]
    by_cases h0 : n / 10 = 0
    · simp [h0]
    · rw [if_neg h0]
      exact ih (n / 10) _ (Or.inr (by simp))

theorem repr_data_ne_nil (n : Nat) : (Nat.repr n).data ≠ [] :=
  toDigitsCore_ne_nil (n + 1) n [] (Or.inl (by simp))

theorem data_append_ne_nil_left (s t : String) (h : s.data ≠ []) :
    (s ++ t).data ≠ [] := by
  rw [String.data_append]
  simp [h]

theorem string_ne_empty_data {s : String} (h : s ≠ "") : s.data ≠ [] := by
  intro hd
  apply h
  cases s with
  | mk l =>
    rw [show l = [] from hd]

/-! ## Helper lemmas: subtitle rendering -/

namespace Utils

theorem head?_dropWhile_not (p : Char → Bool) :
    ∀ (l : List Char) (c : Char), (l.dropWhile p).head? = some c → p c = false := by
  intro l
  induction l with
  | nil => intro c h; simp at h
  | cons a t ih =>
    intro c h
    rw [List.dropWhile_cons] at h
    by_cases hp : p a
    · rw [if_pos hp] at h
      exact ih c h
    · rw [if_neg hp] at h
      simp only [List.head?_cons, Option.some_inj] at h
      rw [← h]
      simpa using hp

theorem pyStripList_getLast_not_space (l : List Char) (c : Char)
    (h : (pyStripList l).getLast? = some c) : isPySpace c = false := by
  unfold pyStripList at h
  rw [List.getLast?_reverse] at h
  exact head?_dropWhile_not _ _ c h

theorem cleanContent_getLast (s : String) (h : cleanContent s ≠ "") :
    ∃ c, (cleanContent s).data.getLast? = some c ∧ isPySpace c = false := by
  have hne : (cleanContent s).data ≠ [] := string_ne_empty_data h
  cases hg : (cleanContent s).data.getLast? with
  | none => exact absurd (List.getLast?_eq_none_iff.mp hg) hne
  | some c => exact ⟨c, rfl, pyStripList_getLast_not_space _ c hg⟩

theorem srtChunk_eq (i : Nat) (t : Transcript) :
    srtChunk i t = specBlock i t ++ "\n\n" := rfl

theorem srtBody_eq_render :
    ∀ (segs : List Transcript) (i : Nat), segs ≠ [] →
      srtBody i segs = renderSubtitlesSpec i segs ++ "\n\n" := by
  intro segs
  induction segs with
  | nil => intro i h; exact absurd rfl h
  | cons t rest ih =>
    intro i _
    cases rest with
    | nil =>
      show srtChunk i t ++ srtBody (i + 1) [] = renderSubtitlesSpec i [t] ++ "\n\n"
      rw [show srtBody (i + 1) [] = "" from rfl, String.append_empty]
      rfl
    | cons t2 rest2 =>
      show srtChunk i t ++ srtBody (i + 1) (t2 :: rest2) = _
      rw [ih (i + 1) (by simp), srtChunk_eq, ← String.append_assoc]
      rfl

theorem specBlock_data_ne_nil (i : Nat) (t : Transcript) :
    (specBlock i t).data ≠ [] :=
  data_append_ne_nil_left _ _ (data_append_ne_nil_left _ _ (data_append_ne_nil_left _ _
    (data_append_ne_nil_left _ _ (data_append_ne_nil_left _ _
      (data_append_ne_nil_left _ _ (repr_data_ne_nil i))))))

theorem render_data_ne_nil (i : Nat) (t : Transcript) (rest : List Transcript) :
    (renderSubtitlesSpec i (t :: rest)).data ≠ [] := by
  cases rest with
  | nil => exact specBlock_data_ne_nil i t
  | cons t2 rest2 =>
    exact data_append_ne_nil_left _ _
      (data_append_ne_nil_left _ _ (specBlock_data_ne_nil i t))

theorem render_head (t : Transcript) (rest : List Transcript) :
    (renderSubtitlesSpec 1 (t :: rest)).data.head? = some '1' := by
  cases rest <;>
    simp [renderSubtitlesSpec, specBlock, String.data_append, Nat.repr, Nat.toDigits,
      Nat.toDigitsCore, Nat.digitChar, List.asString]

theorem render_getLast :
    ∀ (segs : List Transcript) (i : Nat) (t : Transcript),
      segs.getLast? = some t → (cleanContent t.content).data ≠ [] →
      (renderSubtitlesSpec i segs).data.getLast? =
        (cleanContent t.content).data.getLast? := by
  intro segs
  induction segs with
  | nil => intro i t h _; simp at h
  | cons t1 rest ih =>
    intro i t h hne
    cases rest with
    | nil =>
      simp only [List.getLast?_singleton, Option.some_inj] at h
      subst h
      show (specBlock i t1).data.getLast? = _
      rw [show specBlock i t1 =
          (Nat.repr i ++ "\n" ++ format_srt_timestamp t1.dt_start ++ " --> " ++
            format_srt_timestamp t1.dt_end ++ "\n") ++ cleanContent t1.content from rfl,
        String.data_append]
      exact List.getLast?_append_of_ne_nil _ hne
    | cons t2 rest2 =>
      rw [List.getLast?_cons_cons] at h
      show ((specBlock i t1 ++ "\n\n") ++
          renderSubtitlesSpec (i + 1) (t2 :: rest2)).data.getLast? = _
      rw [String.data_append,
        List.getLast?_append_of_ne_nil _ (render_data_ne_nil (i + 1) t2 rest2)]
      exact ih (i + 1) t h hne

theorem pyStrip_wrap (s : String) (c₁ c₂ : Char)
    (h1 : s.data.head? = some c₁) (hc1 : isPySpace c₁ = false)
    (h2 : s.data.getLast? = some c₂) (hc2 : isPySpace c₂ = false) :
    pyStrip (s ++ "\n\n") = s := by
  obtain ⟨t, ht⟩ := List.head?_eq_some_iff.mp h1
  have hdata : (s ++ "\n\n").data = c₁ :: (t ++ ['\n', '\n']) := by
    rw [String.data_append, ht]
    rfl
  show (⟨pyStripList (s ++ "\n\n").data⟩ : String) = s
  rw [hdata]
  unfold pyStripList
  rw [List.dropWhile_cons, if_neg (by simp [hc1])]
  have hrev : (c₁ :: (t ++ ['\n', '\n'])).reverse = '\n' :: '\n' :: (c₁ :: t).reverse := by
    simp
  rw [hrev, List.dropWhile_cons, if_pos (show isPySpace '\n' = true from rfl),
    List.dropWhile_cons, if_pos (show isPySpace '\n' = true from rfl)]
  have hh : (c₁ :: t).reverse.head? = some c₂ := by
    rw [List.head?_reverse, ← ht]
    exact h2
  obtain ⟨t2, ht2⟩ := List.head?_eq_some_iff.mp hh
  rw [ht2, List.dropWhile_cons, if_neg (by simp [hc2]), ← ht2, List.reverse_reverse, ← ht]

end Utils

/-! ## Claim C9 -/

/-- C9 (amended): `parse_srt` renders the 1-based indexed blocks
`"{i}\n{start} --> {end}\n{text}"` (newlines in the text collapsed to spaces,
surrounding whitespace trimmed) separated by exactly one blank line with no
trailing blank line, provided the final segment's cleaned text is non-empty;
when it is empty, the final `.strip()` also trims the block's own trailing
newline. -/
theorem parse_srt_renders_blocks (segs : List Utils.Transcript)
    (hlast : (segs.getLast?.all fun t => Utils.cleanContent t.content != "") = true) :
    Utils.parse_srt segs = Utils.renderSubtitlesSpec 1 segs := by
  cases segs with
  | nil => rfl
  | cons t1 rest =>
    obtain ⟨tl, htl⟩ : ∃ tl, (t1 :: rest).getLast? = some tl := by
      cases hg : (t1 :: rest).getLast? with
      | none => simp [List.getLast?_eq_none_iff] at hg
      | some x => exact ⟨x, rfl⟩
    have hclean : Utils.cleanContent tl.content ≠ "" := by
      rw [htl] at hlast
      simpa using hlast
    have hdne : (Utils.cleanContent tl.content).data ≠ [] := string_ne_empty_data hclean
    obtain ⟨c₂, h2some, h2sp⟩ := Utils.cleanContent_getLast tl.content hclean
    show Utils.pyStrip (Utils.srtBody 1 (t1 :: rest)) = _
    rw [Utils.srtBody_eq_render (t1 :: rest) 1 (by simp)]
    exact Utils.pyStrip_wrap _ '1' c₂ (Utils.render_head t1 rest) rfl
      ((Utils.render_getLast (t1 :: rest) 1 tl htl hdne).trans h2some) h2sp

/-- C9 counterexample: on a single segment whose text collapses to the empty
string, the claimed block rendering keeps the block's trailing newline but
`parse_srt`'s final `.strip()` removes it, so the two differ. -/
theorem parse_srt_renders_blocks_cex :
    Utils.parse_srt [{ dt_start := 0, dt_end := 1000, content := "\n" }] ≠
      Utils.renderSubtitlesSpec 1 [{ dt_start := 0, dt_end := 1000, content := "\n" }] := by
  decide

/-- C9 witness: the empty transcript list renders to the empty string and the
spec's one-segment example renders to the quoted block. -/
theorem parse_srt_renders_blocks_witness :
    Utils.parse_srt [] = "" ∧
    Utils.parse_srt [{ dt_start := 0, dt_end := 1000, content := "a\nb" }] =
      "1\n00:00:00,000 --> 00:00:01,000\na b" := by
  constructor
  · exact parse_srt_renders_blocks [] rfl
  · have h := parse_srt_renders_blocks
      [{ dt_start := 0, dt_end := 1000, content := "a\nb" }] (by decide)
    rw [h]
    rfl

/-! ## Helper lemmas: manifest output paths -/

theorem eq_of_append_cons (c : Char) :
    ∀ (a1 : List Char) (b1 a2 b2 : List Char),
      a1 ++ c :: b1 = a2 ++ c :: b2 → c ∉ a1 → c ∉ a2 → a1 = a2 ∧ b1 = b2 := by
  intro a1
  induction a1 with
  | nil =>
    intro b1 a2 b2 h h1 h2
    cases a2 with
    | nil =>
      simp only [List.nil_append, List.cons.injEq] at h
      exact ⟨rfl, h.2⟩
    | cons x xs =>
      simp only [List.nil_append, List.cons_append, List.cons.injEq] at h
      exact absurd (h.1 ▸ List.mem_cons_self x xs) h2
  | cons y ys ih =>
    intro b1 a2 b2 h h1 h2
    cases a2 with
    | nil =>
      simp only [List.cons_append, List.nil_append, List.cons.injEq] at h
      exact absurd (h.1 ▸ List.mem_cons_self y ys) h1
    | cons x xs =>
      simp only [List.cons_append, List.cons.injEq] at h
      have h1' : c ∉ ys := fun hc => h1 (List.mem_cons_of_mem _ hc)
      have h2' : c ∉ xs := fun hc => h2 (List.mem_cons_of_mem _ hc)
      obtain ⟨ha, hb⟩ := ih b1 xs b2 h.2 h1' h2'
      exact ⟨by rw [h.1, ha], hb⟩

theorem eq_of_append_cons_last (c : Char) (a1 b1 a2 b2 : List Char)
    (h : a1 ++ c :: b1 = a2 ++ c :: b2) (h1 : c ∉ b1) (h2 : c ∉ b2) :
    a1 = a2 ∧ b1 = b2 := by
  have hrev : b1.reverse ++ c :: a1.reverse = b2.reverse ++ c :: a2.reverse := by
    have := congrArg List.reverse h
    simpa [List.reverse_append] using this
  have h1' : c ∉ b1.reverse := by simpa using h1
  have h2' : c ∉ b2.reverse := by simpa using h2
  obtain ⟨hb, ha⟩ := eq_of_append_cons c b1.reverse a1.reverse b2.reverse a2.reverse hrev h1' h2'
  constructor
  · have := congrArg List.reverse ha
    simpa using this
  · have := congrArg List.reverse hb
    simpa using this

theorem not_mem_repr_of_not_digit (c : Char) (hc : c.isDigit = false) (n : Nat) :
    c ∉ (Nat.repr n).data := by
  intro h
  rw [mem_repr_isDigit n c h] at hc
  cases hc

theorem dot_not_mem_extOf (v : String) : '.' ∉ (Manager.extOf v).data := by
  intro h
  have h' : '.' ∈ (Manager.beforeQuery v.data).reverse.takeWhile (fun c => c ≠ '.') := by
    simpa [Manager.extOf, Manager.afterLastDot, List.mem_reverse] using h
  have := List.mem_takeWhile_imp h'
  simp at this

theorem mkPath_name_inj (S n1 n2 : String) (k1 k2 : Nat) (e1 e2 : String)
    (he1 : '.' ∉ e1.data) (he2 : '.' ∉ e2.data)
    (h : Manager.mkPath S n1 k1 e1 = Manager.mkPath S n2 k2 e2) : n1 = n2 := by
  have hd := congrArg String.data h
  simp only [Manager.mkPath, String.data_append, List.append_assoc] at hd
  have h2 := List.append_cancel_left hd
  have h3 : (n1.data ++ '_' :: (Nat.repr k1).data) ++ '.' :: e1.data =
      (n2.data ++ '_' :: (Nat.repr k2).data) ++ '.' :: e2.data := by
    simpa [List.append_assoc] using h2
  obtain ⟨h4, -⟩ := eq_of_append_cons_last '.' _ _ _ _ h3 he1 he2
  obtain ⟨h5, -⟩ := eq_of_append_cons_last '_' _ _ _ _ h4
    (not_mem_repr_of_not_digit '_' (by decide) k1)
    (not_mem_repr_of_not_digit '_' (by decide) k2)
  exact String.ext h5

theorem mem_courseJobs (S : String) (c : Manager.CourseR) (ws : Bool)
    (j : String × String) (h : j ∈ Manager.courseJobs S c ws) :
    ∃ kv ∈ c.download_urls,
      j = (kv.2, Manager.mkPath S c.name kv.1 (Manager.extOf kv.2)) := by
  obtain ⟨kv, hkv, hj⟩ := List.mem_map.mp h
  exact ⟨kv, List.mem_of_mem_filter hkv, hj.symm⟩

/-! ## Claim C7 -/

/-- C7: manifest jobs compose their output path as
`"{subjectName}/{courseName}_{channel}.{ext}"` with the extension taken from
the query-stripped URL's last dot-segment; jobs of courses with distinct
names within the same subject have pairwise-distinct `(url, output_path)`
identities (their output paths already differ), while two same-named courses
in one subject with equal-extension URLs on the same channel produce
colliding output paths that are both kept in the queue (no deduplication). -/
theorem manifestBuilder_output_paths :
    (∀ (S : String) (c1 c2 : Manager.CourseR) (ws : Bool) (j1 j2 : String × String),
      j1 ∈ Manager.courseJobs S c1 ws → j2 ∈ Manager.courseJobs S c2 ws →
      c1.name ≠ c2.name → j1.2 ≠ j2.2) ∧
    Manager.genQueue Cex.colSubjs false [(7, [1, 2])] =
      Except.ok [("x.mp4", "S/lec_0.mp4"), ("y.mp4", "S/lec_0.mp4")] := by
  constructor
  · intro S c1 c2 ws j1 j2 h1 h2 hname heq
    obtain ⟨kv1, -, hj1⟩ := mem_courseJobs S c1 ws j1 h1
    obtain ⟨kv2, -, hj2⟩ := mem_courseJobs S c2 ws j2 h2
    apply hname
    apply mkPath_name_inj S c1.name c2.name kv1.1 kv2.1 _ _
      (dot_not_mem_extOf kv1.2) (dot_not_mem_extOf kv2.2)
    have e1 : j1.2 = Manager.mkPath S c1.name kv1.1 (Manager.extOf kv1.2) := by rw [hj1]
    have e2 : j2.2 = Manager.mkPath S c2.name kv2.1 (Manager.extOf kv2.2) := by rw [hj2]
    rw [← e1, ← e2]
    exact heq
  · rfl

/-- C7 witness: two concretely distinct-named courses in the same subject
yield distinct output paths. -/
theorem manifestBuilder_output_paths_witness :
    ("S/a_0.mp4" : String) ≠ "S/b_0.mp4" :=
  manifestBuilder_output_paths.1 "S" Cex.wcA Cex.wcB false
    ("u.mp4", "S/a_0.mp4") ("v.mp4", "S/b_0.mp4")
    (by decide) (by decide) (by decide)
